import Mathlib

/-!
Shallow embedding of the Transcriber service.

The repository has two FastAPI variants:
  * `src/main.py` — URL validation, yt-dlp download with cookie handling,
    whisper transcription, unconditional cleanup of the downloaded file
    (namespace `Main` below);
  * `src/transcription_api.py` — HTTP download via requests, whisper
    transcription with an "auto" language sentinel, normalization of the
    engine output, plus a `/transcribe-simple` projection endpoint
    (namespace `Api` below).

External collaborators (yt-dlp, whisper, requests, the tempfile module)
are modelled as oracles supplied through environment records; the
filesystem is explicit state (path → content) extended with a log of
`os.unlink` calls, so that "deleted exactly once" is statable.  Python
exceptions are values of `PyExn`; `raise` becomes `Except.error`.
Timestamps are embedded as rationals (no arithmetic is performed on them
anywhere in the code, they are only passed through).
-/

/-- A Python exception as observed by the HTTP layer: either a FastAPI
HTTPException carrying a status code and a detail message, or any other
exception carrying its message (which FastAPI would surface as a raw
internal error). -/
inductive PyExn where
  | http (status_code : Nat) (detail : String)
  | other (msg : String)
deriving DecidableEq, Repr

/-- The filesystem: a map from path to file content, plus a log of every
`os.unlink` call performed (so deletion counts are observable). -/
structure FS where
  contents : String → Option String
  unlinkLog : List String

/-- `os.path.exists`. -/
def FS.pathExists (fs : FS) (path : String) : Bool :=
  (fs.contents path).isSome

/-- Creating/writing a file (tempfile creation, engine download output). -/
def FS.write (fs : FS) (path content : String) : FS :=
  { contents := fun q => if q = path then some content else fs.contents q,
    unlinkLog := fs.unlinkLog }

/-- `os.unlink`: the path disappears and the call is logged. -/
def FS.unlink (fs : FS) (path : String) : FS :=
  { contents := fun q => if q = path then none else fs.contents q,
    unlinkLog := fs.unlinkLog ++ [path] }

/-- An empty filesystem, used for concrete test states. -/
def fs0 : FS := ⟨fun _ => none, []⟩

/-- One invocation of an external collaborator, recorded in order: the
yt-dlp engine (with the cookie file it was configured with), the whisper
engine of `src/main.py` (with the model size selector), the `requests.get`
download of `src/transcription_api.py`, and the whisper engine of
`src/transcription_api.py` (with the language argument it received). -/
inductive ExtCall where
  | extract (cookiefile : Option String)
  | whisperMain (model_size : String)
  | httpGet (url : String)
  | whisperApi (language : Option String)
deriving DecidableEq, Repr

/-- A raw segment as produced by the whisper engine: timing, text, and
whatever additional keys (id, seek, tokens, ...) the engine includes. -/
structure RawSegment where
  start : Rat
  «end» : Rat
  text : String
  extra : List (String × String)
deriving DecidableEq, Repr

/-- The dictionary returned by whisper `model.transcribe`. -/
structure WhisperResult where
  text : String
  language : String
  segments : List RawSegment
  duration : Option Rat
deriving DecidableEq, Repr

/-- The observable outcome of a handler or helper: its returned value or
raised exception, the final filesystem, and the external calls it made. -/
structure Outcome (α : Type) where
  result : Except PyExn α
  fs : FS
  calls : List ExtCall

/-- Split a character list at the first occurrence of "://": returns the
part before it and the part after it, or nothing when the separator does
not occur. -/
def splitOnScheme : List Char → Option (List Char × List Char)
  | [] => none
  | ':' :: '/' :: '/' :: rest => some ([], rest)
  | c :: rest =>
      match splitOnScheme rest with
      | some (s, h) => some (c :: s, h)
      | none => none

/-- Model of the external `validators.url` predicate used by
`src/main.py`: true only for a syntactically valid absolute URL — a
nonempty alphabetic scheme, the "://" separator, and a nonempty host.
It is a pure function: no network access, no side effects. -/
def validators_url (url : String) : Bool :=
  match splitOnScheme url.toList with
  | some (scheme, rest) =>
      decide (scheme ≠ []) && scheme.all Char.isAlpha &&
      decide (rest.takeWhile (fun c => c ≠ '/') ≠ [])
  | none => false

namespace Main

/-- `src/main.py` `TranscriptionRequest` (pydantic model). -/
structure TranscriptionRequest where
  url : String
  model_size : String
deriving DecidableEq, Repr

/-- `src/main.py` `TranscriptionResponse`: note that `segments` is the raw
whisper segment list passed through verbatim. -/
structure TranscriptionResponse where
  text : String
  segments : List RawSegment
  language : String
deriving DecidableEq, Repr

/-- `src/main.py` `validate_url`, delegating to the validators library. -/
def validate_url (url : String) : Bool :=
  validators_url url

/-- Environment of one `download_media` call: the fresh names the
tempfile module hands out (for the media-name template and for a possible
transient cookie file), the `YOUTUBE_COOKIES` environment value, and the
behaviour of the external yt-dlp engine — either the exception message it
raises, or the media filename it returns (`prepare_filename`), together
with the content it wrote there. -/
structure FetchEnv where
  tmpMediaName : String
  tmpCookieName : String
  youtube_cookies : Option String
  extractResult : Except String String
  mediaContent : String

/-- The `finally` block of `download_media`: delete the transient cookie
file if one was recorded and still exists (never the persistent
`cookie.txt`). -/
def cleanupTempCookie (fs : FS) (temp_cookie_file : Option String) : FS :=
  match temp_cookie_file with
  | some p => if fs.pathExists p then fs.unlink p else fs
  | none => fs

/-- The cookie-source selection of `download_media`: the persistent
`cookie.txt` when it exists, else a transient file named by the tempfile
module when `YOUTUBE_COOKIES` is set, else none. -/
def chooseCookiefile (persistent : Bool) (yc : Option String) (tmpName : String) :
    Option String :=
  if persistent then some "cookie.txt"
  else match yc with
    | some _ => some tmpName
    | none => none

/-- `temp_cookie_file` in `download_media`: the chosen cookie file when it
is not the persistent `cookie.txt`. -/
def tempCookieOf (cookiefile : Option String) : Option String :=
  match cookiefile with
  | some p => if p = "cookie.txt" then none else some p
  | none => none

/-- `src/main.py` `download_media`: create the temp media-name template
file; pick the cookie source — the persistent `cookie.txt` when it exists,
else a transient cookie file synthesized from `YOUTUBE_COOKIES` when that
is set, else none; run the engine; on engine failure raise
HTTPException 400 with the cause attached; in all cases delete the
transient cookie file (and only it) before returning. -/
def download_media (env : FetchEnv) (fs : FS) : Outcome String :=
  let fs1 := fs.write env.tmpMediaName ""
  let cookiefile : Option String :=
    chooseCookiefile (fs1.pathExists "cookie.txt") env.youtube_cookies env.tmpCookieName
  let fs2 :=
    if fs1.pathExists "cookie.txt" then fs1
    else match env.youtube_cookies with
      | some c => fs1.write env.tmpCookieName ("# Netscape HTTP Cookie File\n" ++ c)
      | none => fs1
  let temp_cookie_file : Option String := tempCookieOf cookiefile
  match env.extractResult with
  | .ok filename =>
      let fs3 := fs2.write filename env.mediaContent
      ⟨.ok filename, cleanupTempCookie fs3 temp_cookie_file, [.extract cookiefile]⟩
  | .error msg =>
      ⟨.error (.http 400 ("Failed to download media: " ++ msg)),
        cleanupTempCookie fs2 temp_cookie_file, [.extract cookiefile]⟩

/-- Behaviour of `whisper.load_model(model_size)` followed by
`model.transcribe(file_path)` (no language argument): the raised
exception's message, or the result dictionary. -/
structure TransEnv where
  run : String → String → Except String WhisperResult

/-- `src/main.py` `transcribe_audio`: any engine exception becomes
HTTPException 500 with the cause attached. -/
def transcribe_audio (env : TransEnv) (file_path : String) (model_size : String) :
    Except PyExn WhisperResult × List ExtCall :=
  match env.run model_size file_path with
  | .ok r => (.ok r, [.whisperMain model_size])
  | .error msg =>
      (.error (.http 500 ("Transcription failed: " ++ msg)), [.whisperMain model_size])

/-- The handler's `finally` block:
`if audio_file and os.path.exists(audio_file): os.unlink(audio_file)`
(for the case where `audio_file` is a string; the `None` case is the
early-failure branch of the handler). -/
def finallyCleanup (fs : FS) (audio_file : String) : FS :=
  if audio_file != "" && fs.pathExists audio_file then fs.unlink audio_file else fs

/-- `src/main.py` `transcribe_media` (`POST /transcribe`): validate, then
download, then transcribe, then map the result dictionary into the
response; the `finally` block deletes the downloaded file on every exit
path on which it was produced. -/
def transcribe_media (fenv : FetchEnv) (tenv : TransEnv) (fs : FS)
    (request : TranscriptionRequest) : Outcome TranscriptionResponse :=
  if validate_url request.url = false then
    ⟨.error (.http 400 "Invalid URL provided"), fs, []⟩
  else
    match download_media fenv fs with
    | ⟨.error e, fs1, calls1⟩ => ⟨.error e, fs1, calls1⟩
    | ⟨.ok audio_file, fs1, calls1⟩ =>
      match transcribe_audio tenv audio_file request.model_size with
      | (.error e, calls2) =>
          ⟨.error e, finallyCleanup fs1 audio_file, calls1 ++ calls2⟩
      | (.ok result, calls2) =>
          ⟨.ok ⟨result.text, result.segments, result.language⟩,
            finallyCleanup fs1 audio_file, calls1 ++ calls2⟩

/-- A sequence of fetch calls, threading the filesystem. -/
def runFetches (envs : List FetchEnv) (fs : FS) : FS :=
  envs.foldl (fun s e => (download_media e s).fs) fs

end Main

/-- Model of Python `str.strip()`: drop leading and trailing whitespace. -/
def pyStrip (s : String) : String :=
  ⟨((s.toList.dropWhile Char.isWhitespace).reverse.dropWhile Char.isWhitespace).reverse⟩

namespace Api

/-- `src/transcription_api.py` `TranscriptionRequest`. -/
structure TranscriptionRequest where
  audio_url : String
  language : String
deriving DecidableEq, Repr

/-- The normalized segment shape produced by the endpoint. -/
structure Segment where
  start : Rat
  «end» : Rat
  text : String
deriving DecidableEq, Repr

/-- `src/transcription_api.py` `TranscriptionResponse`. -/
structure TranscriptionResponse where
  text : String
  language : String
  duration : Rat
  segments : List Segment
deriving DecidableEq, Repr

/-- Environment of one `transcribe_audio` call: behaviour of
`requests.get` (a RequestException message, or the downloaded body), the
fresh temp-file name, and the behaviour of `model.transcribe` as a
function of the language argument it is given. -/
structure Env where
  httpGetResult : Except String String
  tmpName : String
  whisper : Option String → Except String WhisperResult

/-- `src/transcription_api.py` `transcribe_audio` (`POST /transcribe`):
download the audio body, write it to a temp file, transcribe with the
"auto" sentinel mapped to no language argument, normalize (trim text
fields, project segments to start/end/text), and delete the temp file in
the inner `finally`; RequestException becomes 400, any other exception
becomes 500, each with the cause attached. -/
def transcribe_audio (env : Env) (fs : FS) (request : TranscriptionRequest) :
    Outcome TranscriptionResponse :=
  match env.httpGetResult with
  | .error msg =>
      ⟨.error (.http 400 ("Failed to download audio: " ++ msg)), fs,
        [.httpGet request.audio_url]⟩
  | .ok content =>
      let fs1 := fs.write env.tmpName content
      let temp_file_path := env.tmpName
      let language : Option String :=
        if request.language = "auto" then none else some request.language
      let cleanup := fun (s : FS) =>
        if s.pathExists temp_file_path then s.unlink temp_file_path else s
      match env.whisper language with
      | .error msg =>
          ⟨.error (.http 500 ("Transcription failed: " ++ msg)), cleanup fs1,
            [.httpGet request.audio_url, .whisperApi language]⟩
      | .ok result =>
          let segments := result.segments.map fun s => Segment.mk s.start s.«end» (pyStrip s.text)
          ⟨.ok ⟨pyStrip result.text, result.language, result.duration.getD 0, segments⟩,
            cleanup fs1, [.httpGet request.audio_url, .whisperApi language]⟩

/-- The body returned by `/transcribe-simple`. -/
structure SimpleResponse where
  text : String
  language : String
deriving DecidableEq, Repr

/-- `src/transcription_api.py` `transcribe_simple`
(`POST /transcribe-simple`): call the full handler, project the response
to text and language; `except Exception as e: raise e` re-raises the same
exception unchanged. -/
def transcribe_simple (env : Env) (fs : FS) (request : TranscriptionRequest) :
    Outcome SimpleResponse :=
  match transcribe_audio env fs request with
  | ⟨.ok r, fs1, calls⟩ => ⟨.ok ⟨r.text, r.language⟩, fs1, calls⟩
  | ⟨.error e, fs1, calls⟩ => ⟨.error e, fs1, calls⟩

end Api

/-! ### Basic filesystem lemmas -/

@[simp]
theorem FS.contents_write (fs : FS) (p c q : String) :
    (fs.write p c).contents q = if q = p then some c else fs.contents q := rfl

@[simp]
theorem FS.unlinkLog_write (fs : FS) (p c : String) :
    (fs.write p c).unlinkLog = fs.unlinkLog := rfl

@[simp]
theorem FS.contents_unlink (fs : FS) (p q : String) :
    (fs.unlink p).contents q = if q = p then none else fs.contents q := rfl

@[simp]
theorem FS.unlinkLog_unlink (fs : FS) (p : String) :
    (fs.unlink p).unlinkLog = fs.unlinkLog ++ [p] := rfl

theorem FS.count_unlink_ne (fs : FS) (p q : String) (h : p ≠ q) :
    (fs.unlink p).unlinkLog.count q = fs.unlinkLog.count q := by
  simp [List.count_append, List.count_singleton', h]

theorem FS.count_unlink_self (fs : FS) (p : String) :
    (fs.unlink p).unlinkLog.count p = fs.unlinkLog.count p + 1 := by
  simp [List.count_append]

namespace Main

theorem cleanupTempCookie_contents_ne (fs : FS) (tcf : Option String) (p : String)
    (h : ∀ q, tcf = some q → q ≠ p) :
    (cleanupTempCookie fs tcf).contents p = fs.contents p := by
  cases tcf with
  | none => rfl
  | some q =>
    have hq : p ≠ q := Ne.symm (h q rfl)
    simp only [cleanupTempCookie]
    split
    · simp [hq]
    · rfl

theorem cleanupTempCookie_count_ne (fs : FS) (tcf : Option String) (p : String)
    (h : ∀ q, tcf = some q → q ≠ p) :
    (cleanupTempCookie fs tcf).unlinkLog.count p = fs.unlinkLog.count p := by
  cases tcf with
  | none => rfl
  | some q =>
    have hq : q ≠ p := h q rfl
    simp only [cleanupTempCookie]
    split
    · exact FS.count_unlink_ne fs q p hq
    · rfl

/-- The transient cookie file recorded by `download_media` is either
nothing or the tempfile-provided cookie name. -/
theorem tempCookieOf_chooseCookiefile (persistent : Bool) (yc : Option String)
    (tmpName : String) :
    tempCookieOf (chooseCookiefile persistent yc tmpName) = none ∨
    tempCookieOf (chooseCookiefile persistent yc tmpName) = some tmpName := by
  cases persistent with
  | true => left; rfl
  | false =>
    cases yc with
    | none => left; rfl
    | some c =>
      simp only [chooseCookiefile, tempCookieOf, Bool.false_eq_true, if_false]
      by_cases h : tmpName = "cookie.txt"
      · left; simp [h]
      · right; simp [h]

/-- On engine success, `download_media` returns the engine's filename,
that file is on disk with the downloaded content, and no unlink of it was
performed (given the transient cookie name is distinct from it). -/
theorem download_media_ok (env : FetchEnv) (fs : FS) (f : String)
    (hx : env.extractResult = .ok f) (hck : env.tmpCookieName ≠ f) :
    (download_media env fs).result = .ok f ∧
    (download_media env fs).fs.contents f = some env.mediaContent ∧
    (download_media env fs).fs.unlinkLog.count f = fs.unlinkLog.count f := by
  have hne : ∀ q, tempCookieOf (chooseCookiefile ((fs.write env.tmpMediaName "").pathExists
      "cookie.txt") env.youtube_cookies env.tmpCookieName) = some q → q ≠ f := by
    intro q hq
    rcases tempCookieOf_chooseCookiefile ((fs.write env.tmpMediaName "").pathExists
        "cookie.txt") env.youtube_cookies env.tmpCookieName with h | h
    · rw [h] at hq; cases hq
    · rw [h] at hq
      cases hq
      exact hck
  simp only [download_media, hx]
  refine ⟨by trivial, ?_, ?_⟩
  · rw [cleanupTempCookie_contents_ne _ _ _ hne]
    simp
  · rw [cleanupTempCookie_count_ne _ _ _ hne]
    by_cases hpc : (fs.write env.tmpMediaName "").pathExists "cookie.txt" = true
    · simp [hpc]
    · simp only [hpc, Bool.false_eq_true, if_false]
      cases env.youtube_cookies <;> simp

end Main

namespace Main

/-- The handler's `finally` block deletes the audio file when it is a
nonempty path that exists, and logs exactly one unlink of it. -/
theorem finallyCleanup_deletes (fs : FS) (f : String) (hne : f ≠ "")
    (hex : fs.pathExists f = true) :
    (finallyCleanup fs f).contents f = none ∧
    (finallyCleanup fs f).unlinkLog.count f = fs.unlinkLog.count f + 1 := by
  have hb : (f != "" && fs.pathExists f) = true := by
    simp [bne_iff_ne, hne, hex]
  constructor
  · simp [finallyCleanup, hb]
  · simp [finallyCleanup, hb, FS.count_unlink_self]

/-- Core cleanup fact shared by the claims about resource release: when
the download produced a (nonempty, fresh-named) media path, the handler
ends with that path absent from disk and exactly one more unlink of it
logged, on the success path and on the transcription-failure path
alike. -/
theorem media_file_cleanup (fenv : FetchEnv) (tenv : TransEnv) (fs : FS)
    (req : TranscriptionRequest) (f : String)
    (hv : validate_url req.url = true)
    (hx : fenv.extractResult = .ok f)
    (hne : f ≠ "")
    (hck : fenv.tmpCookieName ≠ f) :
    (transcribe_media fenv tenv fs req).fs.contents f = none ∧
    (transcribe_media fenv tenv fs req).fs.unlinkLog.count f
      = fs.unlinkLog.count f + 1 := by
  obtain ⟨hres, hcont, hcount⟩ := download_media_ok fenv fs f hx hck
  have hex : (download_media fenv fs).fs.pathExists f = true := by
    simp [FS.pathExists, hcont]
  obtain ⟨hdel, hcnt⟩ :=
    finallyCleanup_deletes (download_media fenv fs).fs f hne hex
  rcases ho : download_media fenv fs with ⟨res, fs1, calls1⟩
  rw [ho] at hres hcont hcount hdel hcnt
  simp only at hres hcont hcount hdel hcnt
  subst hres
  simp only [transcribe_media, hv, Bool.true_eq_false, if_false, ho]
  cases hr : tenv.run req.model_size f with
  | ok r =>
    simp only [transcribe_audio, hr]
    exact ⟨hdel, by rw [hcnt, hcount]⟩
  | error msg =>
    simp only [transcribe_audio, hr]
    exact ⟨hdel, by rw [hcnt, hcount]⟩

end Main

/-- The `src/transcription_api.py` handler's inner `finally` block: when
the download succeeded, the temporary audio file is deleted exactly once
(one unlink logged) and absent after the handler returns, on the
transcription-success path and the transcription-failure path alike. -/
theorem Api.temp_audio_deleted_once (env : Api.Env) (fs : FS)
    (req : Api.TranscriptionRequest) (content : String)
    (hg : env.httpGetResult = .ok content) :
    (Api.transcribe_audio env fs req).fs.contents env.tmpName = none ∧
    (Api.transcribe_audio env fs req).fs.unlinkLog.count env.tmpName
      = fs.unlinkLog.count env.tmpName + 1 := by
  simp only [Api.transcribe_audio, hg]
  cases hw : env.whisper (if req.language = "auto" then none else some req.language) with
  | error msg =>
    constructor
    · simp [FS.pathExists]
    · simp [FS.pathExists, List.count_append]
  | ok r =>
    constructor
    · simp [FS.pathExists]
    · simp [FS.pathExists, List.count_append]

/-- A fetch environment whose engine succeeds, returning `media.mp3`. -/
def fenvOk : Main.FetchEnv := ⟨"tmpA", "tmpB", none, .ok "media.mp3", "DATA"⟩

/-- A transcription environment returning the specification's example
result. -/
def tenvOk : Main.TransEnv :=
  ⟨fun _ _ => .ok ⟨"hello world", "en", [⟨0, 1.2, "hello world", []⟩], none⟩⟩

/-- The specification's example request. -/
def reqOk : Main.TranscriptionRequest := ⟨"https://example.com/a.mp3", "base"⟩

/-- An api environment: download succeeds with body "BODY", whisper
succeeds with whitespace-padded text. -/
def aenvOk : Api.Env :=
  ⟨.ok "BODY", "tmpC",
   fun _ => .ok ⟨" hello world ", "en", [⟨0, 1.2, " hello world ", []⟩], none⟩⟩

/-- The api request of the specification's example, with the default
"auto" language. -/
def areqOk : Api.TranscriptionRequest := ⟨"https://example.com/a.mp3", "auto"⟩

/-- C1: for every `POST /transcribe` request on which the download step
produced a local media file, that file is deleted exactly once before the
handler returns (one unlink logged) and no longer exists on disk
afterwards, on every exit path — transcription success and transcription
failure alike — in both variants: the downloaded media file of
`src/main.py` (given the handler's Python truthiness check `if audio_file`
and fresh tempfile names) and the temporary audio file of
`src/transcription_api.py`. -/
theorem C1_media_file_deleted_exactly_once (fenv : Main.FetchEnv)
    (tenv : Main.TransEnv) (aenv : Api.Env) (fs fsa : FS)
    (req : Main.TranscriptionRequest) (areq : Api.TranscriptionRequest) :
    (∀ f, Main.validate_url req.url = true → fenv.extractResult = .ok f →
      f ≠ "" → fenv.tmpCookieName ≠ f →
      (Main.transcribe_media fenv tenv fs req).fs.contents f = none ∧
      (Main.transcribe_media fenv tenv fs req).fs.unlinkLog.count f
        = fs.unlinkLog.count f + 1) ∧
    (∀ content, aenv.httpGetResult = .ok content →
      (Api.transcribe_audio aenv fsa areq).fs.contents aenv.tmpName = none ∧
      (Api.transcribe_audio aenv fsa areq).fs.unlinkLog.count aenv.tmpName
        = fsa.unlinkLog.count aenv.tmpName + 1) :=
  ⟨fun f hv hx hne hck => Main.media_file_cleanup fenv tenv fs req f hv hx hne hck,
   fun content hg => Api.temp_audio_deleted_once aenv fsa areq content hg⟩

/-- Witness for C1: both variants at concrete requests. -/
theorem C1_media_file_deleted_exactly_once_witness :
    ((Main.transcribe_media fenvOk tenvOk fs0 reqOk).fs.contents "media.mp3" = none ∧
     (Main.transcribe_media fenvOk tenvOk fs0 reqOk).fs.unlinkLog.count "media.mp3"
       = fs0.unlinkLog.count "media.mp3" + 1) ∧
    ((Api.transcribe_audio aenvOk fs0 areqOk).fs.contents "tmpC" = none ∧
     (Api.transcribe_audio aenvOk fs0 areqOk).fs.unlinkLog.count "tmpC"
       = fs0.unlinkLog.count "tmpC" + 1) := by
  obtain ⟨h1, h2⟩ :=
    C1_media_file_deleted_exactly_once fenvOk tenvOk aenvOk fs0 fs0 reqOk areqOk
  exact ⟨h1 "media.mp3" (by decide) rfl (by decide) (by decide), h2 "BODY" rfl⟩

/-- A fetch environment whose engine raises with message "boom". -/
def fenvDl : Main.FetchEnv := ⟨"tmpA", "tmpB", none, .error "boom", ""⟩

/-- A transcription environment whose engine raises with message
"model exploded". -/
def tenvErr : Main.TransEnv := ⟨fun _ _ => .error "model exploded"⟩

/-- An api environment whose download raises with message "netsplit". -/
def aenvDl : Api.Env := ⟨.error "netsplit", "tmpC", fun _ => .error "unused"⟩

/-- An api environment whose transcription engine raises with message
"model exploded". -/
def aenvWErr : Api.Env := ⟨.ok "BODY", "tmpC", fun _ => .error "model exploded"⟩

/-- C2: in both `POST /transcribe` variants, a failure of the download
step yields HTTP 400 whose detail contains the underlying cause text, and
a failure of the transcription step yields HTTP 500 whose detail contains
the underlying cause text; the call log shows each engine invoked exactly
once (no retry), and on download failure the transcription engine is
never invoked (no failure kind swallowed). -/
theorem C2_failure_status_mapping (fenv : Main.FetchEnv) (tenv : Main.TransEnv)
    (aenv : Api.Env) (fs fsa : FS) (req : Main.TranscriptionRequest)
    (areq : Api.TranscriptionRequest) :
    (∀ msg, Main.validate_url req.url = true → fenv.extractResult = .error msg →
      ∃ d, (Main.transcribe_media fenv tenv fs req).result = .error (.http 400 d) ∧
        (∃ p, d = p ++ msg) ∧
        ∃ c, (Main.transcribe_media fenv tenv fs req).calls = [.extract c]) ∧
    (∀ f msg, Main.validate_url req.url = true → fenv.extractResult = .ok f →
      tenv.run req.model_size f = .error msg →
      ∃ d, (Main.transcribe_media fenv tenv fs req).result = .error (.http 500 d) ∧
        (∃ p, d = p ++ msg) ∧
        ∃ c, (Main.transcribe_media fenv tenv fs req).calls
          = [.extract c, .whisperMain req.model_size]) ∧
    (∀ msg, aenv.httpGetResult = .error msg →
      ∃ d, (Api.transcribe_audio aenv fsa areq).result = .error (.http 400 d) ∧
        (∃ p, d = p ++ msg) ∧
        (Api.transcribe_audio aenv fsa areq).calls = [.httpGet areq.audio_url]) ∧
    (∀ content msg, aenv.httpGetResult = .ok content →
      aenv.whisper (if areq.language = "auto" then none else some areq.language)
        = .error msg →
      ∃ d, (Api.transcribe_audio aenv fsa areq).result = .error (.http 500 d) ∧
        (∃ p, d = p ++ msg) ∧
        (Api.transcribe_audio aenv fsa areq).calls
          = [.httpGet areq.audio_url,
             .whisperApi (if areq.language = "auto" then none
               else some areq.language)]) := by
  refine ⟨?_, ?_, ?_, ?_⟩
  · intro msg hv hx
    simp only [Main.transcribe_media, hv, Bool.true_eq_false, if_false,
      Main.download_media, hx]
    exact ⟨_, rfl, ⟨"Failed to download media: ", rfl⟩, _, rfl⟩
  · intro f msg hv hx hr
    simp only [Main.transcribe_media, hv, Bool.true_eq_false, if_false,
      Main.download_media, hx, Main.transcribe_audio, hr, List.cons_append,
      List.nil_append]
    exact ⟨_, rfl, ⟨"Transcription failed: ", rfl⟩, _, rfl⟩
  · intro msg hg
    simp only [Api.transcribe_audio, hg]
    exact ⟨_, rfl, ⟨"Failed to download audio: ", rfl⟩, by trivial⟩
  · intro content msg hg hw
    simp only [Api.transcribe_audio, hg, hw]
    exact ⟨_, rfl, ⟨"Transcription failed: ", rfl⟩, by trivial⟩

/-- Witness for C2: failing download and failing transcription at
concrete requests, in each variant. -/
theorem C2_failure_status_mapping_witness :
    (∃ d, (Main.transcribe_media fenvDl tenvErr fs0 reqOk).result = .error (.http 400 d) ∧
      (∃ p, d = p ++ "boom") ∧
      ∃ c, (Main.transcribe_media fenvDl tenvErr fs0 reqOk).calls = [.extract c]) ∧
    (∃ d, (Main.transcribe_media fenvOk tenvErr fs0 reqOk).result = .error (.http 500 d) ∧
      (∃ p, d = p ++ "model exploded") ∧
      ∃ c, (Main.transcribe_media fenvOk tenvErr fs0 reqOk).calls
        = [.extract c, .whisperMain "base"]) ∧
    (∃ d, (Api.transcribe_audio aenvDl fs0 areqOk).result = .error (.http 400 d) ∧
      (∃ p, d = p ++ "netsplit") ∧
      (Api.transcribe_audio aenvDl fs0 areqOk).calls
        = [.httpGet "https://example.com/a.mp3"]) ∧
    (∃ d, (Api.transcribe_audio aenvWErr fs0 areqOk).result = .error (.http 500 d) ∧
      (∃ p, d = p ++ "model exploded") ∧
      (Api.transcribe_audio aenvWErr fs0 areqOk).calls
        = [.httpGet "https://example.com/a.mp3", .whisperApi none]) := by
  refine ⟨?_, ?_, ?_, ?_⟩
  · exact (C2_failure_status_mapping fenvDl tenvErr aenvDl fs0 fs0 reqOk areqOk).1
      "boom" (by decide) rfl
  · exact (C2_failure_status_mapping fenvOk tenvErr aenvWErr fs0 fs0 reqOk areqOk).2.1
      "media.mp3" "model exploded" (by decide) rfl rfl
  · exact (C2_failure_status_mapping fenvDl tenvErr aenvDl fs0 fs0 reqOk areqOk).2.2.1
      "netsplit" rfl
  · exact (C2_failure_status_mapping fenvOk tenvErr aenvWErr fs0 fs0 reqOk areqOk).2.2.2
      "BODY" "model exploded" rfl rfl

/-- C3 counterexample: the claim requires the response body's fields to
equal those of the transcription result for every `POST /transcribe`
handler, but `src/transcription_api.py` normalizes: at this concrete
request the engine's result carries text " hello world " (with a padded
segment), while the client receives the trimmed, projected fields, which
differ from the result's own. -/
theorem C3_counterexample_api_normalizes :
    aenvOk.whisper none
      = .ok ⟨" hello world ", "en", [⟨0, 1.2, " hello world ", []⟩], none⟩ ∧
    (Api.transcribe_audio aenvOk fs0 areqOk).result
      = .ok ⟨"hello world", "en", 0, [⟨0, 1.2, "hello world"⟩]⟩ ∧
    ("hello world" : String) ≠ " hello world " := by
  refine ⟨rfl, rfl, by decide⟩

/-- C3 (amended): when the fetch step returns a local path and the
transcription step returns a result, the handler returns it (HTTP 200);
in `src/main.py` the body's text, segments and language equal those of
the transcription result verbatim, while in `src/transcription_api.py`
they equal the result's fields after its normalization — trimmed text,
segments projected to start/end/text, the result's language (on the
specification's example values, which carry no padding, both bodies
coincide with the example body). -/
theorem C3_amended_success_response (fenv : Main.FetchEnv) (tenv : Main.TransEnv)
    (aenv : Api.Env) (fs fsa : FS) (req : Main.TranscriptionRequest)
    (areq : Api.TranscriptionRequest) (f : String) (r ra : WhisperResult)
    (content : String)
    (hv : Main.validate_url req.url = true)
    (hx : fenv.extractResult = .ok f)
    (hr : tenv.run req.model_size f = .ok r)
    (hg : aenv.httpGetResult = .ok content)
    (hw : aenv.whisper (if areq.language = "auto" then none else some areq.language)
      = .ok ra) :
    (Main.transcribe_media fenv tenv fs req).result
      = .ok ⟨r.text, r.segments, r.language⟩ ∧
    (Api.transcribe_audio aenv fsa areq).result
      = .ok ⟨pyStrip ra.text, ra.language, ra.duration.getD 0,
          ra.segments.map fun s => ⟨s.start, s.«end», pyStrip s.text⟩⟩ := by
  constructor
  · simp only [Main.transcribe_media, hv, Bool.true_eq_false, if_false,
      Main.download_media, hx, Main.transcribe_audio, hr]
  · simp only [Api.transcribe_audio, hg, hw]

/-- An api environment whose engine reports exactly the specification's
example result (no padding). -/
def aenvEx : Api.Env :=
  ⟨.ok "BODY", "tmpC",
   fun _ => .ok ⟨"hello world", "en", [⟨0, 1.2, "hello world", []⟩], none⟩⟩

/-- Witness for the amended C3 at the specification's example: both
variants return the example body. -/
theorem C3_amended_success_response_witness :
    (Main.transcribe_media fenvOk tenvOk fs0 reqOk).result
      = .ok ⟨"hello world", [⟨0, 1.2, "hello world", []⟩], "en"⟩ ∧
    (Api.transcribe_audio aenvEx fs0 areqOk).result
      = .ok ⟨"hello world", "en", 0, [⟨0, 1.2, "hello world"⟩]⟩ := by
  obtain ⟨h1, h2⟩ := C3_amended_success_response fenvOk tenvOk aenvEx fs0 fs0 reqOk areqOk
    "media.mp3" ⟨"hello world", "en", [⟨0, 1.2, "hello world", []⟩], none⟩
    ⟨"hello world", "en", [⟨0, 1.2, "hello world", []⟩], none⟩ "BODY"
    (by decide) rfl rfl rfl rfl
  refine ⟨h1, ?_⟩
  rw [h2]
  rfl

/-- C4: for every malformed input string (here: any string not containing
the "://" scheme separator — covering the empty string, missing scheme,
and plain non-URL text), `validate_url` returns false, and the handler
answers HTTP 400 with no filesystem change and no external call at all
(the fetcher and the transcription engine are never invoked), for every
fetcher/transcriber environment.  `validate_url` itself is a pure
function of the string: no network access, no side effects. -/
theorem C4_malformed_url_rejected_before_fetch (url : String)
    (hm : splitOnScheme url.toList = none) :
    Main.validate_url url = false ∧
    ∀ (fenv : Main.FetchEnv) (tenv : Main.TransEnv) (fs : FS) (ms : String),
      Main.transcribe_media fenv tenv fs ⟨url, ms⟩
        = ⟨.error (.http 400 "Invalid URL provided"), fs, []⟩ := by
  have hfalse : Main.validate_url url = false := by
    simp only [Main.validate_url, validators_url]
    rw [hm]
  exact ⟨hfalse, fun fenv tenv fs ms => by simp [Main.transcribe_media, hfalse]⟩

/-- Witness for C4 at the specification's example input "not-a-url". -/
theorem C4_malformed_url_rejected_before_fetch_witness :
    Main.validate_url "not-a-url" = false ∧
    Main.transcribe_media fenvOk tenvOk fs0 ⟨"not-a-url", "base"⟩
      = ⟨.error (.http 400 "Invalid URL provided"), fs0, []⟩ :=
  ⟨(C4_malformed_url_rejected_before_fetch "not-a-url" rfl).1,
   (C4_malformed_url_rejected_before_fetch "not-a-url" rfl).2 fenvOk tenvOk fs0 "base"⟩

namespace Main

/-- Every outcome of the `src/main.py` handler is a normal response, a
client error 400 or a server error 500 — never a raw (untranslated)
exception. -/
theorem main_handler_classified (fenv : FetchEnv) (tenv : TransEnv) (fs : FS)
    (req : TranscriptionRequest) :
    (∃ r, (transcribe_media fenv tenv fs req).result = .ok r) ∨
    (∃ d, (transcribe_media fenv tenv fs req).result = .error (.http 400 d)) ∨
    (∃ d, (transcribe_media fenv tenv fs req).result = .error (.http 500 d)) := by
  cases hv : validate_url req.url with
  | false =>
    right; left
    exact ⟨"Invalid URL provided", by simp [transcribe_media, hv]⟩
  | true =>
    cases hx : fenv.extractResult with
    | error msg =>
      right; left
      exact ⟨"Failed to download media: " ++ msg, by simp only [transcribe_media, hv,
        Bool.true_eq_false, if_false, download_media, hx]⟩
    | ok f =>
      cases hr : tenv.run req.model_size f with
      | error msg =>
        right; right
        exact ⟨"Transcription failed: " ++ msg, by simp only [transcribe_media, hv,
          Bool.true_eq_false, if_false, download_media, hx, transcribe_audio, hr]⟩
      | ok r =>
        left
        exact ⟨⟨r.text, r.segments, r.language⟩, by simp only [transcribe_media, hv,
          Bool.true_eq_false, if_false, download_media, hx, transcribe_audio, hr]⟩

end Main

namespace Api

/-- Every outcome of the `src/transcription_api.py` handler is a normal
response, a client error 400 or a server error 500 — never a raw
(untranslated) exception. -/
theorem api_handler_classified (env : Env) (fs : FS) (req : TranscriptionRequest) :
    (∃ r, (transcribe_audio env fs req).result = .ok r) ∨
    (∃ d, (transcribe_audio env fs req).result = .error (.http 400 d)) ∨
    (∃ d, (transcribe_audio env fs req).result = .error (.http 500 d)) := by
  cases hg : env.httpGetResult with
  | error msg =>
    right; left
    exact ⟨"Failed to download audio: " ++ msg, by simp only [transcribe_audio, hg]⟩
  | ok content =>
    cases hw : env.whisper (if req.language = "auto" then none else some req.language) with
    | error msg =>
      right; right
      exact ⟨"Transcription failed: " ++ msg, by simp only [transcribe_audio, hg, hw]⟩
    | ok r =>
      left
      exact ⟨⟨pyStrip r.text, r.language, r.duration.getD 0,
          r.segments.map fun s => ⟨s.start, s.«end», pyStrip s.text⟩⟩,
        by simp only [transcribe_audio, hg, hw]⟩

/-- Whenever the download succeeded, the temporary audio file is gone
after the handler returns, on the transcription-success path and the
transcription-failure path alike. -/
theorem temp_audio_cleanup (env : Env) (fs : FS) (req : TranscriptionRequest)
    (content : String) (hg : env.httpGetResult = .ok content) :
    (transcribe_audio env fs req).fs.contents env.tmpName = none := by
  simp only [transcribe_audio, hg]
  cases hw : env.whisper (if req.language = "auto" then none else some req.language) with
  | error msg => simp [FS.pathExists]
  | ok r => simp [FS.pathExists]

end Api

/-- C5: in both variants, every exception raised during the fetch or
transcribe stage — whatever its type, i.e. for every behaviour of the
external engines — is translated into a typed error response (HTTP 400 or
500 with a detail), never surfaced as a raw internal error; and the
media-file cleanup still occurs on those paths (`src/main.py`: the
downloaded file, given the handler's truthiness check and fresh temp
names; `src/transcription_api.py`: the temporary audio file). -/
theorem C5_unanticipated_exceptions_translated_cleanup (fenv : Main.FetchEnv)
    (tenv : Main.TransEnv) (aenv : Api.Env) (fs fsa : FS)
    (req : Main.TranscriptionRequest) (areq : Api.TranscriptionRequest) :
    ((∃ r, (Main.transcribe_media fenv tenv fs req).result = .ok r) ∨
      (∃ d, (Main.transcribe_media fenv tenv fs req).result = .error (.http 400 d)) ∨
      (∃ d, (Main.transcribe_media fenv tenv fs req).result = .error (.http 500 d))) ∧
    (∀ f, Main.validate_url req.url = true → fenv.extractResult = .ok f → f ≠ "" →
      fenv.tmpCookieName ≠ f →
      (Main.transcribe_media fenv tenv fs req).fs.contents f = none) ∧
    ((∃ r, (Api.transcribe_audio aenv fsa areq).result = .ok r) ∨
      (∃ d, (Api.transcribe_audio aenv fsa areq).result = .error (.http 400 d)) ∨
      (∃ d, (Api.transcribe_audio aenv fsa areq).result = .error (.http 500 d))) ∧
    (∀ content, aenv.httpGetResult = .ok content →
      (Api.transcribe_audio aenv fsa areq).fs.contents aenv.tmpName = none) :=
  ⟨Main.main_handler_classified fenv tenv fs req,
   fun f hv hx hne hck => (Main.media_file_cleanup fenv tenv fs req f hv hx hne hck).1,
   Api.api_handler_classified aenv fsa areq,
   fun content hg => Api.temp_audio_cleanup aenv fsa areq content hg⟩

/-- Witness for C5: concrete environments in which both transcription
engines raise, with the cleanup conclusions instantiated. -/
theorem C5_unanticipated_exceptions_translated_cleanup_witness :
    ((∃ r, (Main.transcribe_media fenvOk tenvErr fs0 reqOk).result = .ok r) ∨
      (∃ d, (Main.transcribe_media fenvOk tenvErr fs0 reqOk).result = .error (.http 400 d)) ∨
      (∃ d, (Main.transcribe_media fenvOk tenvErr fs0 reqOk).result = .error (.http 500 d))) ∧
    (Main.transcribe_media fenvOk tenvErr fs0 reqOk).fs.contents "media.mp3" = none ∧
    ((∃ r, (Api.transcribe_audio aenvOk fs0 areqOk).result = .ok r) ∨
      (∃ d, (Api.transcribe_audio aenvOk fs0 areqOk).result = .error (.http 400 d)) ∨
      (∃ d, (Api.transcribe_audio aenvOk fs0 areqOk).result = .error (.http 500 d))) ∧
    (Api.transcribe_audio aenvOk fs0 areqOk).fs.contents "tmpC" = none := by
  obtain ⟨h1, h2, h3, h4⟩ :=
    C5_unanticipated_exceptions_translated_cleanup fenvOk tenvErr aenvOk fs0 fs0 reqOk areqOk
  exact ⟨h1, h2 "media.mp3" (by decide) rfl (by decide) (by decide), h3, h4 "BODY" rfl⟩

theorem FS.pathExists_write_self (fs : FS) (p c : String) :
    (fs.write p c).pathExists p = true := by
  simp [FS.pathExists]

theorem FS.pathExists_write_of (fs : FS) (p q c : String)
    (h : fs.pathExists p = true) :
    (fs.write q c).pathExists p = true := by
  by_cases hpq : p = q
  · simp [FS.pathExists, FS.write, hpq]
  · simpa [FS.pathExists, FS.write, hpq] using h

/-- C6: for every fetch that synthesizes a transient cookie file from the
environment-provided `YOUTUBE_COOKIES` value (no persistent `cookie.txt`
on disk, value present), the transient cookie file no longer exists after
`download_media` returns — whether the download succeeded or failed — and
exactly one unlink of it was logged.  The tempfile-provided names are
assumed distinct from the reserved path `cookie.txt`. -/
theorem C6_transient_cookie_file_removed (env : Main.FetchEnv) (fs : FS) (c : String)
    (hnc : fs.contents "cookie.txt" = none)
    (hm : env.tmpMediaName ≠ "cookie.txt")
    (hc : env.youtube_cookies = some c)
    (ht : env.tmpCookieName ≠ "cookie.txt") :
    (Main.download_media env fs).fs.contents env.tmpCookieName = none ∧
    (Main.download_media env fs).fs.unlinkLog.count env.tmpCookieName
      = fs.unlinkLog.count env.tmpCookieName + 1 := by
  have hmc : ¬ ("cookie.txt" = env.tmpMediaName) := fun h => hm h.symm
  have hpc : (fs.write env.tmpMediaName "").pathExists "cookie.txt" = false := by
    simp [FS.pathExists, hmc, hnc]
  cases hx : env.extractResult with
  | error msg =>
    have hex : ((fs.write env.tmpMediaName "").write env.tmpCookieName
        ("# Netscape HTTP Cookie File\n" ++ c)).pathExists env.tmpCookieName = true :=
      FS.pathExists_write_self _ _ _
    simp only [Main.download_media, hpc, Bool.false_eq_true, if_false, hc,
      Main.chooseCookiefile, Main.tempCookieOf, ht, ite_false, Main.cleanupTempCookie,
      hx, hex, ite_true]
    constructor
    · simp
    · simp [List.count_append]
  | ok filename =>
    have hex : (((fs.write env.tmpMediaName "").write env.tmpCookieName
        ("# Netscape HTTP Cookie File\n" ++ c)).write filename
          env.mediaContent).pathExists env.tmpCookieName = true :=
      FS.pathExists_write_of _ _ _ _ (FS.pathExists_write_self _ _ _)
    simp only [Main.download_media, hpc, Bool.false_eq_true, if_false, hc,
      Main.chooseCookiefile, Main.tempCookieOf, ht, ite_false, Main.cleanupTempCookie,
      hx, hex, ite_true]
    constructor
    · simp
    · simp [List.count_append]

/-- A fetch environment with no persistent cookie file but an
environment-provided cookie value "SESSION=x". -/
def fenvCk : Main.FetchEnv := ⟨"tmpA", "tmpB", some "SESSION=x", .error "boom", ""⟩

/-- Witness for C6 at a concrete failing fetch with a synthesized
transient cookie file "tmpB". -/
theorem C6_transient_cookie_file_removed_witness :
    (Main.download_media fenvCk fs0).fs.contents "tmpB" = none ∧
    (Main.download_media fenvCk fs0).fs.unlinkLog.count "tmpB"
      = fs0.unlinkLog.count "tmpB" + 1 :=
  C6_transient_cookie_file_removed fenvCk fs0 "SESSION=x" rfl (by decide) rfl (by decide)

namespace Main

/-- With the persistent cookie file on disk, `download_media` configures
the engine with it, synthesizes no transient cookie file, ignores the
environment-provided cookie value entirely, and leaves `cookie.txt`
untouched. -/
theorem download_media_persistent_cookie (env : FetchEnv) (fs : FS)
    (hpc : fs.pathExists "cookie.txt" = true)
    (hm : env.tmpMediaName ≠ "cookie.txt")
    (hok : ∀ f, env.extractResult = .ok f → f ≠ "cookie.txt") :
    (download_media env fs).fs.contents "cookie.txt" = fs.contents "cookie.txt" ∧
    (download_media env fs).calls = [.extract (some "cookie.txt")] ∧
    download_media env fs
      = download_media ⟨env.tmpMediaName, env.tmpCookieName, none,
          env.extractResult, env.mediaContent⟩ fs := by
  have hmc : ¬ ("cookie.txt" = env.tmpMediaName) := fun h => hm h.symm
  have hpc1 : (fs.write env.tmpMediaName "").pathExists "cookie.txt" = true := by
    simpa [FS.pathExists, FS.write, hmc] using hpc
  cases hx : env.extractResult with
  | error msg =>
    simp only [download_media, hpc1, if_true, chooseCookiefile, tempCookieOf,
      cleanupTempCookie, hx, ite_true]
    exact ⟨by simp [hmc], by trivial, by trivial⟩
  | ok f =>
    have hfc : ¬ ("cookie.txt" = f) := fun h => (hok f hx) h.symm
    simp only [download_media, hpc1, if_true, chooseCookiefile, tempCookieOf,
      cleanupTempCookie, hx, ite_true]
    exact ⟨by simp [hmc, hfc], by trivial, by trivial⟩

/-- The persistent cookie file's content is preserved across any sequence
of fetch calls whose tempfile names and returned media paths avoid the
reserved path. -/
theorem runFetches_preserves_cookie (envs : List FetchEnv) :
    ∀ (fs : FS) (cc : String), fs.contents "cookie.txt" = some cc →
      (∀ env ∈ envs, env.tmpMediaName ≠ "cookie.txt" ∧
        ∀ f, env.extractResult = .ok f → f ≠ "cookie.txt") →
      (runFetches envs fs).contents "cookie.txt" = some cc := by
  induction envs with
  | nil =>
    intro fs cc hp _
    simpa [runFetches] using hp
  | cons e rest ih =>
    intro fs cc hp h
    have he := h e (List.mem_cons_self e rest)
    have hstep := download_media_persistent_cookie e fs
      (by simp [FS.pathExists, hp]) he.1 he.2
    have hrw : runFetches (e :: rest) fs = runFetches rest ((download_media e fs).fs) := rfl
    rw [hrw]
    exact ih ((download_media e fs).fs) cc (by rw [hstep.1, hp])
      (fun env hmem => h env (List.mem_cons_of_mem _ hmem))

end Main

/-- C7: if a persistent cookie file exists at the well-known path
`cookie.txt`, it still exists with unchanged content after any number of
fetch calls (whose fresh temp names and downloaded paths avoid that
reserved path); moreover every single fetch from such a state configures
the engine with `cookie.txt` itself, synthesizes no transient cookie
file, and its entire outcome is independent of the environment-provided
cookie value — the persistent file takes precedence. -/
theorem C7_persistent_cookie_preserved (envs : List Main.FetchEnv) (fs : FS)
    (cc : String)
    (hp : fs.contents "cookie.txt" = some cc)
    (h : ∀ env ∈ envs, env.tmpMediaName ≠ "cookie.txt" ∧
      ∀ f, env.extractResult = .ok f → f ≠ "cookie.txt") :
    (Main.runFetches envs fs).contents "cookie.txt" = some cc ∧
    ∀ (env : Main.FetchEnv) (s : FS), s.contents "cookie.txt" = some cc →
      env.tmpMediaName ≠ "cookie.txt" →
      (∀ f, env.extractResult = .ok f → f ≠ "cookie.txt") →
      (Main.download_media env s).fs.contents "cookie.txt" = some cc ∧
      (Main.download_media env s).calls = [.extract (some "cookie.txt")] ∧
      Main.download_media env s
        = Main.download_media ⟨env.tmpMediaName, env.tmpCookieName, none,
            env.extractResult, env.mediaContent⟩ s := by
  refine ⟨Main.runFetches_preserves_cookie envs fs cc hp h, ?_⟩
  intro env s hs hm hok
  have hstep := Main.download_media_persistent_cookie env s
    (by simp [FS.pathExists, hs]) hm hok
  exact ⟨by rw [hstep.1, hs], hstep.2.1, hstep.2.2⟩

/-- A fetch environment with both a successful engine and an
environment-provided cookie value (which must be ignored when the
persistent file exists). -/
def fenvP : Main.FetchEnv := ⟨"tmpA", "tmpB", some "SESSION=x", .ok "media.mp3", "DATA"⟩

/-- A filesystem holding the persistent cookie file. -/
def fsCk : FS := fs0.write "cookie.txt" "CK"

/-- Witness for C7: one concrete fetch sequence over a state holding the
persistent cookie file. -/
theorem C7_persistent_cookie_preserved_witness :
    (Main.runFetches [fenvP] fsCk).contents "cookie.txt" = some "CK" ∧
    (Main.download_media fenvP fsCk).fs.contents "cookie.txt" = some "CK" ∧
    (Main.download_media fenvP fsCk).calls = [.extract (some "cookie.txt")] ∧
    Main.download_media fenvP fsCk
      = Main.download_media ⟨"tmpA", "tmpB", none, .ok "media.mp3", "DATA"⟩ fsCk := by
  have hok : ∀ f, fenvP.extractResult = Except.ok f → f ≠ "cookie.txt" := by
    intro f hf
    injection hf with h2
    rw [← h2]
    decide
  obtain ⟨h1, h2⟩ := C7_persistent_cookie_preserved [fenvP] fsCk "CK" rfl
    (by
      intro env henv
      rw [List.mem_singleton] at henv
      subst henv
      exact ⟨by decide, hok⟩)
  obtain ⟨h3, h4, h5⟩ := h2 fenvP fsCk rfl (by decide) hok
  exact ⟨h1, h3, h4, h5⟩

/-- A transcription environment whose engine reports whitespace-padded
text, exercising the (absent) trimming of `src/main.py`. -/
def tenvWs : Main.TransEnv :=
  ⟨fun _ _ => .ok ⟨" hi ", "en", [⟨0, 1, " hi ", []⟩], none⟩⟩

/-- C8 counterexample: the claim quantifies over every transcription
result returned to the client, but the `src/main.py` handler returns the
engine's text (and segment text) verbatim: at this concrete request the
client receives " hi ", whose leading and trailing whitespace is not
trimmed, and the raw segment (extra engine keys included) is passed
through rather than projected to the start/end/text shape. -/
theorem C8_counterexample_main_not_trimmed :
    (Main.transcribe_media fenvOk tenvWs fs0 reqOk).result
      = .ok ⟨" hi ", [⟨0, 1, " hi ", []⟩], "en"⟩ ∧
    pyStrip " hi " ≠ " hi " := by
  constructor
  · rfl
  · decide

/-- C8 (amended): in the `src/transcription_api.py` variant, every
transcription result returned to the client has leading and trailing
whitespace trimmed from its text field and from each segment's text
field, each raw engine segment is projected to the start/end/text shape,
and the returned language is the engine's reported (detected or
requested) language; the `src/main.py` variant returns the engine output
verbatim. -/
theorem C8_amended_api_output_normalized (env : Api.Env) (fs : FS)
    (req : Api.TranscriptionRequest) (content : String) (r : WhisperResult)
    (hg : env.httpGetResult = .ok content)
    (hw : env.whisper (if req.language = "auto" then none else some req.language)
      = .ok r) :
    (Api.transcribe_audio env fs req).result
      = .ok ⟨pyStrip r.text, r.language, r.duration.getD 0,
          r.segments.map fun s => ⟨s.start, s.«end», pyStrip s.text⟩⟩ := by
  simp only [Api.transcribe_audio, hg, hw]

/-- Witness for the amended C8: whitespace-padded engine output is
returned trimmed, projected, and with the engine's language. -/
theorem C8_amended_api_output_normalized_witness :
    (Api.transcribe_audio aenvOk fs0 areqOk).result
      = .ok ⟨"hello world", "en", 0, [⟨0, 1.2, "hello world"⟩]⟩ := by
  have h := C8_amended_api_output_normalized aenvOk fs0 areqOk "BODY"
    ⟨" hello world ", "en", [⟨0, 1.2, " hello world ", []⟩], none⟩ rfl rfl
  rw [h]
  rfl

/-- C9: for every transcription call of `src/transcription_api.py`, the
whisper engine is invoked with no language argument exactly when the
request's selector is the sentinel "auto" (auto-detection), and with the
selector string forwarded unchanged otherwise; the literal string "auto"
is never passed through as a language code. -/
theorem C9_auto_sentinel_language_selection (env : Api.Env) (fs : FS)
    (req : Api.TranscriptionRequest) (content : String)
    (hg : env.httpGetResult = .ok content) :
    (Api.transcribe_audio env fs req).calls
      = [.httpGet req.audio_url,
         .whisperApi (if req.language = "auto" then none else some req.language)] ∧
    (req.language = "auto" →
      (Api.transcribe_audio env fs req).calls
        = [.httpGet req.audio_url, .whisperApi none]) ∧
    (req.language ≠ "auto" →
      (Api.transcribe_audio env fs req).calls
        = [.httpGet req.audio_url, .whisperApi (some req.language)]) := by
  have hcalls : (Api.transcribe_audio env fs req).calls
      = [.httpGet req.audio_url,
         .whisperApi (if req.language = "auto" then none else some req.language)] := by
    simp only [Api.transcribe_audio, hg]
    cases hw : env.whisper (if req.language = "auto" then none else some req.language) with
    | error msg => rfl
    | ok r => rfl
  refine ⟨hcalls, ?_, ?_⟩
  · intro ha
    rw [hcalls, ha]
    simp
  · intro ha
    rw [hcalls, if_neg ha]

/-- Witness for C9: the "auto" request invokes whisper with no language
argument. -/
theorem C9_auto_sentinel_language_selection_witness :
    (Api.transcribe_audio aenvOk fs0 areqOk).calls
      = [.httpGet "https://example.com/a.mp3", .whisperApi none] :=
  (C9_auto_sentinel_language_selection aenvOk fs0 areqOk "BODY" rfl).2.1 rfl

/-- C10: for every request body accepted by the transcription_api variant
of `POST /transcribe`, `POST /transcribe-simple` performs exactly the
same computation (same final filesystem, same external calls) and returns
exactly the projection to text and language of the full response on
success, and re-raises the very same error (same status, same detail) on
failure. -/
theorem C10_transcribe_simple_is_projection (env : Api.Env) (fs : FS)
    (req : Api.TranscriptionRequest) :
    (Api.transcribe_simple env fs req).fs = (Api.transcribe_audio env fs req).fs ∧
    (Api.transcribe_simple env fs req).calls = (Api.transcribe_audio env fs req).calls ∧
    (∀ r, (Api.transcribe_audio env fs req).result = .ok r →
      (Api.transcribe_simple env fs req).result = .ok ⟨r.text, r.language⟩) ∧
    (∀ e, (Api.transcribe_audio env fs req).result = .error e →
      (Api.transcribe_simple env fs req).result = .error e) := by
  rcases h : Api.transcribe_audio env fs req with ⟨res, fs1, calls1⟩
  cases res with
  | ok r =>
    refine ⟨by simp [Api.transcribe_simple, h], by simp [Api.transcribe_simple, h], ?_, ?_⟩
    · intro r2 hr2
      simp only at hr2
      injection hr2 with h2
      subst h2
      simp [Api.transcribe_simple, h]
    · intro e he
      simp only at he
      cases he
  | error e =>
    refine ⟨by simp [Api.transcribe_simple, h], by simp [Api.transcribe_simple, h], ?_, ?_⟩
    · intro r2 hr2
      simp only at hr2
      cases hr2
    · intro e2 he2
      simp only at he2
      injection he2 with h2
      subst h2
      simp [Api.transcribe_simple, h]

/-- Witness for C10 at the concrete example request: the simple endpoint
returns the text/language projection. -/
theorem C10_transcribe_simple_is_projection_witness :
    (Api.transcribe_simple aenvOk fs0 areqOk).result = .ok ⟨"hello world", "en"⟩ :=
  (C10_transcribe_simple_is_projection aenvOk fs0 areqOk).2.2.1
    ⟨"hello world", "en", 0, [⟨0, 1.2, "hello world"⟩]⟩ (by rfl)
